import Mathlib

/-!
Formal model of the scene-timing components of the aidobe Modal video
processor: `scene_timing.py` (SceneTimingCalculator), `scene_gap_validator.py`
(SceneGapValidator) and `audio_master_sync.py` (AudioMasterSync).

Python floats are embedded as exact rationals; the literal tolerance
constants of the source keep their values (0.001 = 1/1000, 0.1 = 1/10).
Python `raise ValueError` is embedded as `Except`.  Scene dictionaries are
embedded twice: `Scene` for dictionaries that carry all three timing keys,
and `RawScene` (optional fields) wherever the source itself checks for a
missing key (`_validate_scene_data`).
-/

namespace Aidobe

/-- A scene dictionary carrying the three timing keys used by the validator:
`start_time`, `end_time`, `duration` (all floats in the source). -/
structure Scene where
  start_time : ℚ
  end_time : ℚ
  duration : ℚ
  deriving DecidableEq, Repr, Inhabited

/-- A scene dictionary as received by `_validate_scene_data`, where any of the
three required keys may be absent (`field not in scene`). -/
structure RawScene where
  start_time : Option ℚ
  end_time : Option ℚ
  duration : Option ℚ
  deriving DecidableEq, Repr, Inhabited

/-- View a fully-populated scene as a raw dictionary (all keys present). -/
def Scene.toRaw (s : Scene) : RawScene :=
  ⟨some s.start_time, some s.end_time, some s.duration⟩

/-- Reading `scene['start_time']` after the presence check has succeeded. -/
def rawStart (s : RawScene) : ℚ := s.start_time.getD 0

/-- Reading `scene['end_time']` after the presence check has succeeded. -/
def rawEnd (s : RawScene) : ℚ := s.end_time.getD 0

/-- Reading `scene['duration']` after the presence check has succeeded. -/
def rawDur (s : RawScene) : ℚ := s.duration.getD 0

/-- The three required keys checked by `_validate_scene_data`. -/
inductive SceneField where
  | startT
  | endT
  | durT
  deriving DecidableEq, Repr

/-- The `ValueError`s raised by `_validate_scene_data`, in source order:
missing key, `end_time <= start_time`, duration mismatch beyond the default
tolerance, negative `start_time` or non-positive `duration`.  Each error
carries the index of the offending scene. -/
inductive SceneErr where
  | missingField : Nat → SceneField → SceneErr
  | endNotAfterStart : Nat → SceneErr
  | durationMismatch : Nat → SceneErr
  | negativeValues : Nat → SceneErr
  deriving DecidableEq, Repr

/-- The scene index named by a `_validate_scene_data` error message. -/
def SceneErr.index : SceneErr → Nat
  | .missingField i _ => i
  | .endNotAfterStart i => i
  | .durationMismatch i => i
  | .negativeValues i => i

/-- The per-scene body of `_validate_scene_data` (scene_gap_validator.py,
lines 311-329): the three key-presence checks in source order, then
`end_time <= start_time`, then `|calculated_duration - duration| > tolerance`
(with the instance default tolerance), then
`start_time < 0 or duration <= 0`. -/
def checkScene (tol : ℚ) (i : Nat) (s : RawScene) : Except SceneErr Unit :=
  match s.start_time with
  | none => .error (.missingField i .startT)
  | some st =>
    match s.end_time with
    | none => .error (.missingField i .endT)
    | some en =>
      match s.duration with
      | none => .error (.missingField i .durT)
      | some du =>
        if en ≤ st then .error (.endNotAfterStart i)
        else if |(en - st) - du| > tol then .error (.durationMismatch i)
        else if st < 0 ∨ du ≤ 0 then .error (.negativeValues i)
        else .ok ()

/-- The `for i, scene in enumerate(scenes)` loop of `_validate_scene_data`,
started at index `i`; stops at the first failing scene. -/
def validateSceneDataFrom (tol : ℚ) : Nat → List RawScene → Except SceneErr Unit
  | _, [] => .ok ()
  | i, s :: rest =>
    match checkScene tol i s with
    | .error e => .error e
    | .ok _ => validateSceneDataFrom tol (i + 1) rest

/-- `SceneGapValidator._validate_scene_data(scenes)`: raises at the first
scene violating an invariant, using the instance `default_tolerance`. -/
def validateSceneData (tol : ℚ) (scenes : List RawScene) : Except SceneErr Unit :=
  validateSceneDataFrom tol 0 scenes

/-- One entry of the `gaps` list built by `validate_scene_continuity`. -/
structure GapInfo where
  after_scene : Nat
  gap_start : ℚ
  gap_end : ℚ
  gap_duration : ℚ
  deriving DecidableEq, Repr

/-- One entry of the `overlaps` list built by `validate_scene_continuity`. -/
structure OverlapInfo where
  scene1 : Nat
  scene2 : Nat
  overlap_start : ℚ
  overlap_end : ℚ
  overlap_duration : ℚ
  deriving DecidableEq, Repr

/-- The dictionary returned by `validate_scene_continuity`. -/
structure ValidationResult where
  is_valid : Bool
  gaps : List GapInfo
  overlaps : List OverlapInfo
  total_duration : ℚ
  message : String
  deriving DecidableEq, Repr

/-- `next_scene['start_time'] - current_scene['end_time']` for the adjacent
pair at position `i`. -/
def gapAt (scenes : List RawScene) (i : Nat) : ℚ :=
  rawStart (scenes.getD (i + 1) default) - rawEnd (scenes.getD i default)

/-- The main loop of `validate_scene_continuity` (lines 66-112) for two or
more scenes.  The single Python loop appends gap records (when
`gap > tolerance`) and overlap records (when `gap < -tolerance`) in order of
`i`; each `i` contributes to at most one of the two lists, so the two lists
are the order-preserving `filterMap`s below. -/
def continuityReport (tolerance : ℚ) (scenes : List RawScene) : ValidationResult :=
  let n := scenes.length
  let gaps := (List.range (n - 1)).filterMap (fun i =>
    if gapAt scenes i > tolerance then
      some ⟨i, rawEnd (scenes.getD i default), rawStart (scenes.getD (i + 1) default),
            gapAt scenes i⟩
    else none)
  let overlaps := (List.range (n - 1)).filterMap (fun i =>
    if gapAt scenes i < -tolerance then
      some ⟨i, i + 1, rawStart (scenes.getD (i + 1) default),
            rawEnd (scenes.getD i default), |gapAt scenes i|⟩
    else none)
  let total := rawEnd (scenes.getD (n - 1) default) - rawStart (scenes.getD 0 default)
  let ok := gaps.isEmpty && overlaps.isEmpty
  { is_valid := ok
    gaps := gaps
    overlaps := overlaps
    total_duration := total
    message :=
      if ok then "Valid continuity"
      else toString gaps.length ++ " gaps, " ++ toString overlaps.length ++ " overlaps detected" }

/-- The dictionary `validate_scene_continuity` returns once
`_validate_scene_data` has passed: the empty, single-scene and general
cases of the source, in order. -/
def continuityResult (tolerance : ℚ) (scenes : List RawScene) : ValidationResult :=
  if scenes.length = 0 then
    ⟨true, [], [], 0, "No scenes to validate"⟩
  else if scenes.length = 1 then
    ⟨true, [], [], rawDur (scenes.getD 0 default),
     "Single scene - no continuity issues possible"⟩
  else
    continuityReport tolerance scenes

/-- `SceneGapValidator.validate_scene_continuity(scenes, tolerance)`:
the per-call tolerance defaults to the instance `default_tolerance`;
`_validate_scene_data` always runs with the instance default. -/
def validateSceneContinuity (defaultTol : ℚ) (tol? : Option ℚ)
    (scenes : List RawScene) : Except SceneErr ValidationResult :=
  let tolerance := tol?.getD defaultTol
  match validateSceneData defaultTol scenes with
  | .error e => .error e
  | .ok _ => .ok (continuityResult tolerance scenes)

/-- `validate_scene_continuity` on a list of fully-populated scene dicts. -/
def validateScenes (defaultTol : ℚ) (tol? : Option ℚ)
    (scenes : List Scene) : Except SceneErr ValidationResult :=
  validateSceneContinuity defaultTol tol? (scenes.map Scene.toRaw)

/-! ### Repair operations of `SceneGapValidator`

Every repair starts from `copy.deepcopy(scenes)` and mutates only the copy;
the value-level embeddings below compute the list the copy holds when it is
returned.  (The heap-level embedding used for the no-mutation claim is
further down.) -/

/-- One step of the `fix_overlaps_trim_previous` loop (lines 205-217): the
scene at position `i` is trimmed against its (so far untouched) successor;
only its `end_time` and `duration` are rewritten, with the 0.1s floor when
the trimmed duration would be non-positive. -/
def trimAgainst (cur next : Scene) : Scene :=
  if cur.end_time > next.start_time then
    if next.start_time - cur.start_time ≤ 0 then
      ⟨cur.start_time, cur.start_time + 1 / 10, 1 / 10⟩
    else
      ⟨cur.start_time, next.start_time, next.start_time - cur.start_time⟩
  else cur

/-- `SceneGapValidator.fix_overlaps_trim_previous(scenes)` (lines 190-219):
each iteration reads `fixed_scenes[i]` and `fixed_scenes[i+1]`, neither of
which was written by an earlier iteration (iteration `j` writes only index
`j < i`, and successors are never written), so the loop is the simple
recursion below; the last scene is never written. -/
def fixOverlapsTrimPrevious : List Scene → List Scene
  | [] => []
  | [s] => [s]
  | s :: t :: rest => trimAgainst s t :: fixOverlapsTrimPrevious (t :: rest)

/-- The `for i in range(1, len(fixed_scenes))` loop of
`fix_gaps_shift_following` (lines 176-186), carrying the already-fixed
previous scene: when the gap to the previous scene exceeds the default
tolerance the current scene is shifted earlier by the gap. -/
def shiftLoop (tol : ℚ) (prev : Scene) : List Scene → List Scene
  | [] => []
  | cur :: rest =>
    let gap := cur.start_time - prev.end_time
    let cur' := if gap > tol then
        ⟨cur.start_time - gap, cur.end_time - gap, cur.duration⟩
      else cur
    cur' :: shiftLoop tol cur' rest

/-- `SceneGapValidator.fix_gaps_shift_following(scenes)` (lines 160-188). -/
def fixGapsShiftFollowing (tol : ℚ) : List Scene → List Scene
  | [] => []
  | s :: rest => s :: shiftLoop tol s rest

/-- Shift a scene by `amount` (both `start_time` and `end_time`, as in the
inner loop of `fix_gaps_extend_previous`, lines 153-156). -/
def shiftScene (amount : ℚ) (s : Scene) : Scene :=
  ⟨s.start_time + amount, s.end_time + amount, s.duration⟩

/-- One iteration `i` of the `fix_gaps_extend_previous` loop
(lines 134-156), acting on the whole working list: extend scene `i` up to
the start of scene `i+1` when the gap exceeds the default tolerance; under a
(truthy, i.e. non-zero) `min_scene_duration` that the extended scene still
misses, extend it to the minimum and shift every following scene by the
extra amount. -/
def extendStep (tol : ℚ) (minD : Option ℚ) (l : List Scene) (i : Nat) : List Scene :=
  let cur := l.getD i default
  let next := l.getD (i + 1) default
  let gap := next.start_time - cur.end_time
  if gap > tol then
    let cur1 : Scene := ⟨cur.start_time, next.start_time, next.start_time - cur.start_time⟩
    match minD with
    | some m =>
      if m ≠ 0 ∧ cur1.duration < m then
        let ext := m - cur1.duration
        let cur2 : Scene := ⟨cur1.start_time, cur1.end_time + ext, m⟩
        (l.set i cur2).mapIdx (fun j s => if i + 1 ≤ j then shiftScene ext s else s)
      else l.set i cur1
    | none => l.set i cur1
  else l

/-- `SceneGapValidator.fix_gaps_extend_previous(scenes, min_scene_duration)`
(lines 114-158). -/
def fixGapsExtendPrevious (tol : ℚ) (minD : Option ℚ) (scenes : List Scene) : List Scene :=
  if scenes = [] then scenes
  else (List.range (scenes.length - 1)).foldl (extendStep tol minD) scenes

/-- `SceneGapValidator.fix_all_timing_issues(scenes, min_scene_duration)`
(lines 221-253): trim overlaps, extend gaps, re-validate; a `ValueError`
raised by the re-validation propagates; when the result is still invalid,
fall back once to shift-following plus trim-overlaps applied to the
original scenes, returned without any further validation. -/
def fixAllTimingIssues (tol : ℚ) (minD : Option ℚ)
    (scenes : List Scene) : Except SceneErr (List Scene) :=
  if scenes = [] then .ok scenes
  else
    match validateScenes tol none
        (fixGapsExtendPrevious tol minD (fixOverlapsTrimPrevious scenes)) with
    | .error e => .error e
    | .ok v =>
      if v.is_valid then
        .ok (fixGapsExtendPrevious tol minD (fixOverlapsTrimPrevious scenes))
      else .ok (fixOverlapsTrimPrevious (fixGapsShiftFollowing tol scenes))

/-- The rescale loop of `enforce_total_duration` (lines 283-288): rewrite
each scene to start at the running cumulative time with its duration scaled
by `factor`; returns the rewritten scenes and the final `cumulative_time`. -/
def rescaleLoop (factor : ℚ) (cum : ℚ) : List Scene → List Scene × ℚ
  | [] => ([], cum)
  | s :: rest =>
    let d := s.duration * factor
    let en := cum + d
    (⟨cum, en, d⟩ :: (rescaleLoop factor en rest).1, (rescaleLoop factor en rest).2)

/-- `last_scene['duration'] += adjustment; last_scene['end_time'] += adjustment`
(lines 294-297). -/
def adjustLast (adj : ℚ) : List Scene → List Scene
  | [] => []
  | [s] => [⟨s.start_time, s.end_time + adj, s.duration + adj⟩]
  | s :: t :: rest => s :: adjustLast adj (t :: rest)

/-- `SceneGapValidator.enforce_total_duration(scenes, target_duration)`
(lines 255-299): return the copy unchanged when the duration sum is already
within the default tolerance of the target; otherwise rescale every duration
by `target_duration / current_total`, rebuild contiguous times from
`cumulative_time = 0.0`, and patch the last scene if a residual beyond the
tolerance remains. -/
def enforceTotalDuration (tol : ℚ) (scenes : List Scene) (target : ℚ) : List Scene :=
  if scenes = [] then scenes
  else
    let currentTotal := (scenes.map Scene.duration).sum
    if |currentTotal - target| < tol then scenes
    else
      let factor := target / currentTotal
      let rescaled := (rescaleLoop factor 0 scenes).1
      let actualTotal := (rescaleLoop factor 0 scenes).2
      if |actualTotal - target| > tol then adjustLast (target - actualTotal) rescaled
      else rescaled

/-! ### `SceneTimingCalculator` (scene_timing.py) -/

/-- The `for i in range(scene_count)` loop of `_distribute_with_tracking`
(lines 180-195), with `count` iterations left, next index `i` and the
current `running_total`: each scene receives
`(i+1)*base_duration - running_total`.  (With `track_deficit_surplus` the
loop additionally appends to the instance deficit/surplus logs, which does
not affect the returned list.) -/
def distributeLoop (base : ℚ) : Nat → Nat → ℚ → List ℚ
  | 0, _, _ => []
  | count + 1, i, running =>
    let d := ((i : ℚ) + 1) * base - running
    d :: distributeLoop base count (i + 1) (running + d)

/-- `durations[-1] += adjustment` on a non-empty list. -/
def addToLast (adj : ℚ) : List ℚ → List ℚ
  | [] => []
  | [d] => [d + adj]
  | d :: e :: rest => d :: addToLast adj (e :: rest)

/-- `SceneTimingCalculator._distribute_with_tracking(audio_duration,
scene_count, track_deficit_surplus)` (lines 169-203): the tracking loop
followed by the final precision adjustment against the literal 0.001
threshold. -/
def distributeWithTracking (audio : ℚ) (count : Nat) (track : Bool) : List ℚ :=
  let base := audio / (count : ℚ)
  let ds := distributeLoop base count 0 0
  let actual := ds.sum
  if |actual - audio| > 1 / 1000 then addToLast (audio - actual) ds else ds

/-- `SceneTimingCalculator._distribute_with_minimum_constraint` (lines
205-223). -/
def distributeWithMinimumConstraint (audio : ℚ) (count : Nat) (minD : ℚ) : List ℚ :=
  let durations := List.replicate count minD
  let totalMin := durations.sum
  if totalMin > audio then durations
  else
    let remaining := audio - totalMin
    let bonus := remaining / (count : ℚ)
    durations.map (· + bonus)

/-- The `for _ in range(additional_scenes)` loop of
`_distribute_with_maximum_constraint` (lines 247-253): append
`min(remaining, max_duration)`, decrement `remaining`, break once
`remaining <= 0`. -/
def maxFillLoop (maxD : ℚ) : Nat → ℚ → List ℚ
  | 0, _ => []
  | n + 1, remaining =>
    let d := min remaining maxD
    let remaining' := remaining - d
    if remaining' ≤ 0 then [d] else d :: maxFillLoop maxD n remaining'

/-- `SceneTimingCalculator._distribute_with_maximum_constraint` (lines
225-255). -/
def distributeWithMaximumConstraint (audio : ℚ) (count : Nat) (maxD : ℚ) : List ℚ :=
  let base := audio / (count : ℚ)
  if base ≤ maxD then distributeWithTracking audio count false
  else
    let durations := List.replicate count maxD
    let totalCapped := durations.sum
    if totalCapped < audio then
      let remaining := audio - totalCapped
      let additional := (Int.ceil (remaining / maxD)).toNat
      durations ++ maxFillLoop maxD additional remaining
    else durations

/-- The max-constraint branch of `distribute_scene_durations` (lines 66-76):
Python's `if max_scene_duration and base_duration > max_scene_duration`
treats `None` and `0.0` as falsy. -/
def distributeAfterMin (audio : ℚ) (count : Nat) (maxD : Option ℚ)
    (track : Bool) (base : ℚ) : List ℚ :=
  match maxD with
  | some M =>
    if M ≠ 0 ∧ base > M then
      distributeWithMaximumConstraint audio (Int.ceil (audio / M)).toNat M
    else distributeWithTracking audio count track
  | none => distributeWithTracking audio count track

/-- `SceneTimingCalculator.distribute_scene_durations(audio_duration,
scene_count, min_scene_duration, max_scene_duration, track_deficit_surplus)`
(lines 21-76): input guards (`scene_count` is a natural number here, so the
Python `scene_count <= 0` guard is `count = 0`), then the truthiness-guarded
minimum and maximum constraint branches, then the tracking distribution. -/
def distributeSceneDurations (audio : ℚ) (count : Nat)
    (minD maxD : Option ℚ) (track : Bool) : Except String (List ℚ) :=
  if audio ≤ 0 then .error "Audio duration must be positive"
  else if count = 0 then .error "Scene count must be positive"
  else
    let base := audio / (count : ℚ)
    match minD with
    | some m =>
      if m ≠ 0 ∧ base < m then
        .ok (distributeWithMinimumConstraint audio (Int.ceil (audio / m)).toNat m)
      else .ok (distributeAfterMin audio count maxD track base)
    | none => .ok (distributeAfterMin audio count maxD track base)

/-! ### `AudioMasterSync.enforce_audio_priority` (audio_master_sync.py) -/

/-- A video clip: the duration plus an opaque payload standing for all the
other data a moviepy clip carries. -/
structure VideoClip where
  duration : ℚ
  payload : String
  deriving DecidableEq, Repr

/-- Modelled from the spec: `set_duration` is the external moviepy primitive
(not part of this repository) that returns a copy of the clip with the given
duration. -/
def VideoClip.setDuration (c : VideoClip) (d : ℚ) : VideoClip :=
  { c with duration := d }

/-- `AudioMasterSync.enforce_audio_priority(video_clip, audio_duration,
visual_preference_duration)` (lines 149-167): audio always wins; the visual
preference argument is ignored. -/
def enforceAudioPriority (clip : VideoClip) (audioDuration : ℚ)
    (visualPreferenceDuration : Option ℚ) : VideoClip :=
  clip.setDuration audioDuration

/-! ### Helper lemmas -/

/-- `trimAgainst` never touches `start_time`. -/
theorem trimAgainst_start_time (s t : Scene) :
    (trimAgainst s t).start_time = s.start_time := by
  unfold trimAgainst
  split
  · split <;> rfl
  · rfl

/-- `fix_overlaps_trim_previous` preserves the number of scenes. -/
theorem fixOverlaps_length : ∀ scenes : List Scene,
    (fixOverlapsTrimPrevious scenes).length = scenes.length
  | [] => rfl
  | [_] => rfl
  | s :: t :: rest => by
    have ih := fixOverlaps_length (t :: rest)
    show (trimAgainst s t :: fixOverlapsTrimPrevious (t :: rest)).length = _
    simp only [List.length_cons] at ih ⊢
    omega

/-- `fix_overlaps_trim_previous` preserves every `start_time`. -/
theorem fixOverlaps_getD_start : ∀ (scenes : List Scene) (d : Scene) (i : Nat),
    ((fixOverlapsTrimPrevious scenes).getD i d).start_time =
      (scenes.getD i d).start_time
  | [], _, _ => rfl
  | [_], _, _ => rfl
  | s :: t :: _rest, _, 0 => trimAgainst_start_time s t
  | _s :: t :: rest, d, i + 1 => fixOverlaps_getD_start (t :: rest) d i

/-- `fix_overlaps_trim_previous` returns the last scene unchanged. -/
theorem fixOverlaps_getLast? : ∀ scenes : List Scene,
    (fixOverlapsTrimPrevious scenes).getLast? = scenes.getLast?
  | [] => rfl
  | [_] => rfl
  | s :: t :: rest => by
    have ih := fixOverlaps_getLast? (t :: rest)
    cases rest with
    | nil => rfl
    | cons r rs =>
      show (trimAgainst s t :: (trimAgainst t r :: fixOverlapsTrimPrevious (r :: rs))).getLast?
          = (s :: t :: r :: rs).getLast?
      rw [List.getLast?_cons_cons, List.getLast?_cons_cons]
      exact ih

/-! ### Claim theorems -/

/-- C10: `fix_overlaps_trim_previous` modifies at most the `end_time` and
`duration` fields of scenes other than the last one: the returned list has
the same length, every scene keeps its input `start_time`, and the last
scene is returned with all three fields unchanged. -/
theorem fix_overlaps_preserves_starts_and_last
    (scenes : List Scene) (d : Scene) (i : Nat) :
    (fixOverlapsTrimPrevious scenes).length = scenes.length ∧
    ((fixOverlapsTrimPrevious scenes).getD i d).start_time =
      (scenes.getD i d).start_time ∧
    (fixOverlapsTrimPrevious scenes).getLast? = scenes.getLast? :=
  ⟨fixOverlaps_length scenes, fixOverlaps_getD_start scenes d i,
    fixOverlaps_getLast? scenes⟩

/-- C8: `enforce_audio_priority` always returns the clip with its duration
set to exactly `audio_duration`, and two calls differing only in the visual
preference argument return identical results; in particular a clip of
duration 60 synced to audio duration 42.123 comes back with duration
42.123. -/
theorem enforce_audio_priority_audio_wins (clip : VideoClip) (a : ℚ)
    (v₁ v₂ : Option ℚ) :
    (enforceAudioPriority clip a v₁).duration = a ∧
    enforceAudioPriority clip a v₁ = enforceAudioPriority clip a v₂ ∧
    (enforceAudioPriority ⟨60, clip.payload⟩ (42123 / 1000) v₁).duration =
      42123 / 1000 :=
  ⟨rfl, rfl, rfl⟩

/-- C3 counterexample: on the timeline with starts `[0, 12, 23]`, ends
`[12, 25, 38]` and durations `[12, 15, 15]` the code trims only the second
scene (the pair `(0, 1)` has no overlap there), so the result is
`[0,12]→12, [12,23]→11, [23,38]→15` and not the list the claim expects. -/
theorem fix_overlaps_spec_example_fails :
    fixOverlapsTrimPrevious [⟨0, 12, 12⟩, ⟨12, 25, 15⟩, ⟨23, 38, 15⟩] =
      [⟨0, 12, 12⟩, ⟨12, 23, 11⟩, ⟨23, 38, 15⟩] ∧
    fixOverlapsTrimPrevious [⟨0, 12, 12⟩, ⟨12, 25, 15⟩, ⟨23, 38, 15⟩] ≠
      [⟨0, 10, 10⟩, ⟨10, 23, 13⟩, ⟨23, 38, 15⟩] := by
  norm_num [fixOverlapsTrimPrevious, trimAgainst]

/-- C3 (amended): on the timeline with starts `[0, 10, 23]`, ends
`[12, 25, 38]` and durations `[12, 15, 15]` — the two 2-second overlaps the
example describes — `fix_overlaps_trim_previous` returns
`[0,10]→10, [10,23]→13, [23,38]→15`, and validating that result reports
`is_valid = true`. -/
theorem fix_overlaps_two_overlap_example :
    fixOverlapsTrimPrevious [⟨0, 12, 12⟩, ⟨10, 25, 15⟩, ⟨23, 38, 15⟩] =
      [⟨0, 10, 10⟩, ⟨10, 23, 13⟩, ⟨23, 38, 15⟩] ∧
    (validateScenes (1 / 1000) none
        (fixOverlapsTrimPrevious [⟨0, 12, 12⟩, ⟨10, 25, 15⟩, ⟨23, 38, 15⟩])).toOption.map
        ValidationResult.is_valid = some true := by
  norm_num [fixOverlapsTrimPrevious, trimAgainst, validateScenes,
    validateSceneContinuity, validateSceneData, validateSceneDataFrom,
    checkScene, Scene.toRaw, continuityResult, continuityReport, gapAt,
    rawStart, rawEnd, rawDur, List.range_succ, Except.toOption, lt_abs, abs_lt]

/-- C9: the per-call tolerance of `validate_scene_continuity` only
classifies gaps and overlaps — whether the call raises, and which error it
raises, is the same for every per-call tolerance, because the structural
check always runs with the instance `default_tolerance`; concretely, a
scene `[0, 10]` whose `duration` field 10.5 deviates by 0.5 from its span
still raises a duration-mismatch error for scene 0 when the call passes the
much larger tolerance 1. -/
theorem validate_tolerance_only_classifies (dtol t₁ t₂ : ℚ)
    (scenes : List RawScene) (e : SceneErr) :
    (validateSceneContinuity dtol (some t₁) scenes = .error e ↔
      validateSceneContinuity dtol (some t₂) scenes = .error e) ∧
    validateSceneContinuity (1 / 1000) (some 1) [Scene.toRaw ⟨0, 10, 21 / 2⟩] =
      .error (.durationMismatch 0) := by
  constructor
  · unfold validateSceneContinuity
    cases h : validateSceneData dtol scenes with
    | error e' => simp
    | ok u => simp
  · norm_num [validateSceneContinuity, validateSceneData,
      validateSceneDataFrom, checkScene, Scene.toRaw, lt_abs, abs_lt]

/-- Evaluation helper: validating the timeline `[0,0.1]→0.1, [0,5]→5`
reaches the continuity report (its structural data is fine). -/
theorem validate_floor_example_eq :
    validateScenes (1 / 1000) none [⟨0, 1 / 10, 1 / 10⟩, ⟨0, 5, 5⟩] =
      .ok (continuityResult (1 / 1000)
        (([⟨0, 1 / 10, 1 / 10⟩, ⟨0, 5, 5⟩] : List Scene).map Scene.toRaw)) := by
  norm_num [validateScenes, validateSceneContinuity, validateSceneData,
    validateSceneDataFrom, checkScene, Scene.toRaw, lt_abs, abs_lt]

/-- Evaluation helper: the continuity report of `[0,0.1]→0.1, [0,5]→5`
flags the overlap, so the timeline is invalid. -/
theorem floor_example_invalid :
    (continuityResult (1 / 1000)
      (([⟨0, 1 / 10, 1 / 10⟩, ⟨0, 5, 5⟩] : List Scene).map Scene.toRaw)).is_valid = false := by
  norm_num [continuityResult, continuityReport, gapAt, rawStart, rawEnd,
    rawDur, Scene.toRaw, List.range_succ]
  simp

/-- Evaluation helper: on `[0,5]→5, [0,5]→5` both repair passes of
`fix_all_timing_issues` produce `[0,0.1]→0.1, [0,5]→5`, and the fallback
result is returned. -/
theorem fixAll_floor_example_eval :
    fixAllTimingIssues (1 / 1000) none [⟨0, 5, 5⟩, ⟨0, 5, 5⟩] =
      .ok [⟨0, 1 / 10, 1 / 10⟩, ⟨0, 5, 5⟩] := by
  have hfix : fixGapsExtendPrevious (1 / 1000) none
      (fixOverlapsTrimPrevious [⟨0, 5, 5⟩, ⟨0, 5, 5⟩]) =
      [⟨0, 1 / 10, 1 / 10⟩, ⟨0, 5, 5⟩] := by
    norm_num [fixOverlapsTrimPrevious, trimAgainst, fixGapsExtendPrevious,
      extendStep, List.range_succ]
  have hshift : fixOverlapsTrimPrevious
      (fixGapsShiftFollowing (1 / 1000) [⟨0, 5, 5⟩, ⟨0, 5, 5⟩]) =
      [⟨0, 1 / 10, 1 / 10⟩, ⟨0, 5, 5⟩] := by
    norm_num [fixOverlapsTrimPrevious, trimAgainst, fixGapsShiftFollowing,
      shiftLoop]
  unfold fixAllTimingIssues
  rw [if_neg (by simp), hfix, validate_floor_example_eq]
  simp only [floor_example_invalid, Bool.false_eq_true, if_false]
  rw [hshift]

/-- C4 counterexample: for the two fully-overlapping scenes
`[0,5]→5, [0,5]→5`, the 0.1s floor of the trim step leaves an overlap that
the fallback (shift-following plus trim on the original) reproduces, and
`fix_all_timing_issues` returns that still-invalid timeline as a normal
result — no error is raised and validation of the output reports
`is_valid = false`. -/
theorem fix_all_silent_invalid_cex :
    fixAllTimingIssues (1 / 1000) none [⟨0, 5, 5⟩, ⟨0, 5, 5⟩] =
      .ok [⟨0, 1 / 10, 1 / 10⟩, ⟨0, 5, 5⟩] ∧
    ∃ r, validateScenes (1 / 1000) none [⟨0, 1 / 10, 1 / 10⟩, ⟨0, 5, 5⟩] = .ok r ∧
      r.is_valid = false :=
  ⟨fixAll_floor_example_eval, _, validate_floor_example_eq, floor_example_invalid⟩

/-- C4 (amended): `fix_all_timing_issues` applies trim-overlaps then
extend-gaps, re-validates, and falls back at most once to shift-following
plus trim-overlaps on the original timeline; whenever it returns a timeline
that is not that (unvalidated) fallback result, the returned timeline is
one that `validate` reports as valid.  (The fallback result is returned
without re-validation and may still be invalid; there are exactly two
repair passes and no failure report.) -/
theorem fix_all_returns_valid_or_fallback (tol : ℚ) (minD : Option ℚ)
    (scenes out : List Scene)
    (h : fixAllTimingIssues tol minD scenes = .ok out) :
    (∃ r, validateScenes tol none out = .ok r ∧ r.is_valid = true) ∨
    out = fixOverlapsTrimPrevious (fixGapsShiftFollowing tol scenes) := by
  unfold fixAllTimingIssues at h
  by_cases hne : scenes = []
  · rw [if_pos hne] at h
    subst hne
    obtain rfl : out = [] := by simpa using h.symm
    exact .inl ⟨⟨true, [], [], 0, "No scenes to validate"⟩, rfl, rfl⟩
  · rw [if_neg hne] at h
    cases hv : validateScenes tol none
        (fixGapsExtendPrevious tol minD (fixOverlapsTrimPrevious scenes)) with
    | error e => rw [hv] at h; simp at h
    | ok v =>
      rw [hv] at h
      simp only [] at h
      by_cases hval : v.is_valid = true
      · rw [if_pos hval] at h
        obtain rfl : fixGapsExtendPrevious tol minD (fixOverlapsTrimPrevious scenes) = out := by
          simpa using h
        exact .inl ⟨v, hv, hval⟩
      · rw [if_neg hval] at h
        exact .inr (by simpa using h.symm)

/-- Witness for the amended C4 at the counterexample input. -/
theorem fix_all_returns_valid_or_fallback_witness :
    (∃ r, validateScenes (1 / 1000) none
        ([⟨0, 1 / 10, 1 / 10⟩, ⟨0, 5, 5⟩] : List Scene) = .ok r ∧
        r.is_valid = true) ∨
    ([⟨0, 1 / 10, 1 / 10⟩, ⟨0, 5, 5⟩] : List Scene) =
      fixOverlapsTrimPrevious (fixGapsShiftFollowing (1 / 1000) [⟨0, 5, 5⟩, ⟨0, 5, 5⟩]) :=
  fix_all_returns_valid_or_fallback (1 / 1000) none [⟨0, 5, 5⟩, ⟨0, 5, 5⟩]
    [⟨0, 1 / 10, 1 / 10⟩, ⟨0, 5, 5⟩] fixAll_floor_example_eval

/-! ### Rescale lemmas for `enforce_total_duration` -/

/-- Spec-side predicate: every adjacent pair of scenes is contiguous
(the later scene starts where the earlier one ends). -/
def Contiguous (l : List Scene) : Prop :=
  ∀ (i : Nat) (d : Scene), i + 1 < l.length →
    (l.getD (i + 1) d).start_time = (l.getD i d).end_time

/-- Spec-side predicate: every scene's `duration` field equals
`end_time - start_time`. -/
def DurationsConsistent (l : List Scene) : Prop :=
  ∀ (i : Nat) (d : Scene), i < l.length →
    (l.getD i d).duration = (l.getD i d).end_time - (l.getD i d).start_time

theorem rescaleLoop_length (f : ℚ) : ∀ (l : List Scene) (cum : ℚ),
    (rescaleLoop f cum l).1.length = l.length
  | [], _ => rfl
  | s :: rest, cum => by
    show ((⟨cum, _, _⟩ : Scene) :: (rescaleLoop f _ rest).1).length = _
    simp [rescaleLoop_length f rest]

theorem rescaleLoop_snd (f : ℚ) : ∀ (l : List Scene) (cum : ℚ),
    (rescaleLoop f cum l).2 = cum + f * (l.map Scene.duration).sum
  | [], cum => by simp [rescaleLoop]
  | s :: rest, cum => by
    show (rescaleLoop f (cum + s.duration * f) rest).2 = _
    rw [rescaleLoop_snd f rest]
    simp only [List.map_cons, List.sum_cons]
    ring

theorem rescaleLoop_dur_sum (f : ℚ) : ∀ (l : List Scene) (cum : ℚ),
    ((rescaleLoop f cum l).1.map Scene.duration).sum =
      f * (l.map Scene.duration).sum
  | [], _ => by simp [rescaleLoop]
  | s :: rest, cum => by
    show (Scene.duration ⟨cum, _, _⟩ :: ((rescaleLoop f _ rest).1.map Scene.duration)).sum = _
    rw [List.sum_cons, rescaleLoop_dur_sum f rest]
    simp only [List.map_cons, List.sum_cons]
    ring

theorem rescaleLoop_head_start (f cum : ℚ) (s : Scene) (l : List Scene) (d : Scene) :
    ((rescaleLoop f cum (s :: l)).1.getD 0 d).start_time = cum := rfl

theorem rescaleLoop_contiguous (f : ℚ) : ∀ (l : List Scene) (cum : ℚ),
    Contiguous (rescaleLoop f cum l).1
  | [], _ => by intro i d hi; simp [rescaleLoop] at hi
  | s :: rest, cum => by
    intro i d hi
    match rest, i with
    | [], i => simp [rescaleLoop] at hi
    | t :: rest', 0 => exact rescaleLoop_head_start f _ t rest' d
    | t :: rest', i + 1 =>
      have hlen : i + 1 < (rescaleLoop f (cum + s.duration * f) (t :: rest')).1.length := by
        rw [rescaleLoop_length]
        rw [show (rescaleLoop f cum (s :: t :: rest')).1.length
            = (t :: rest').length + 1 from by rw [rescaleLoop_length]; rfl] at hi
        omega
      exact rescaleLoop_contiguous f (t :: rest') (cum + s.duration * f) i d hlen

theorem rescaleLoop_consistent (f : ℚ) : ∀ (l : List Scene) (cum : ℚ),
    DurationsConsistent (rescaleLoop f cum l).1
  | [], _ => by intro i d hi; simp [rescaleLoop] at hi
  | s :: rest, cum => by
    intro i d hi
    match i with
    | 0 =>
      simp only [rescaleLoop, List.getD_cons_zero]
      ring
    | i + 1 =>
      have hlen : i < (rescaleLoop f (cum + s.duration * f) rest).1.length := by
        rw [rescaleLoop_length]
        rw [show (rescaleLoop f cum (s :: rest)).1.length
            = rest.length + 1 from by rw [rescaleLoop_length]; rfl] at hi
        omega
      exact rescaleLoop_consistent f rest (cum + s.duration * f) i d hlen

/-- C2 counterexample: a single scene `[5,15]→10` rescaled to target 20
satisfies every hypothesis of the claim, yet the returned timeline starts
at 0, not at the first scene's original `start_time` 5 — the rescale loop
restarts `cumulative_time` at 0.0 unconditionally. -/
theorem enforce_total_duration_origin_cex :
    ([⟨5, 15, 10⟩] : List Scene) ≠ [] ∧
    (0 : ℚ) < (([⟨5, 15, 10⟩] : List Scene).map Scene.duration).sum ∧
    ¬ |(([⟨5, 15, 10⟩] : List Scene).map Scene.duration).sum - 20| < 1 / 1000 ∧
    enforceTotalDuration (1 / 1000) [⟨5, 15, 10⟩] 20 = [⟨0, 20, 20⟩] ∧
    ((enforceTotalDuration (1 / 1000) [⟨5, 15, 10⟩] 20).getD 0 default).start_time ≠
      (([⟨5, 15, 10⟩] : List Scene).getD 0 default).start_time := by
  norm_num [enforceTotalDuration, rescaleLoop, adjustLast, lt_abs, abs_lt]

/-- C2 (amended): for every non-empty timeline whose duration fields sum to
a positive value not already within ε of the target,
`enforce_total_duration` returns scenes whose durations sum to the target
exactly (hence within ε), that are internally contiguous with
`duration = end_time - start_time`, and whose recomputed start/end times
begin at 0 (not at the first scene's original `start_time`). -/
theorem enforce_total_duration_rescales (tol target : ℚ) (scenes : List Scene)
    (hne : scenes ≠ []) (htol : 0 < tol)
    (hpos : 0 < (scenes.map Scene.duration).sum)
    (hfar : ¬ |(scenes.map Scene.duration).sum - target| < tol) :
    ((enforceTotalDuration tol scenes target).map Scene.duration).sum = target ∧
    |((enforceTotalDuration tol scenes target).map Scene.duration).sum - target| < tol ∧
    (enforceTotalDuration tol scenes target).length = scenes.length ∧
    Contiguous (enforceTotalDuration tol scenes target) ∧
    DurationsConsistent (enforceTotalDuration tol scenes target) ∧
    ((enforceTotalDuration tol scenes target).getD 0 default).start_time = 0 := by
  have hS : (scenes.map Scene.duration).sum ≠ 0 := ne_of_gt hpos
  have hsnd : (rescaleLoop (target / (scenes.map Scene.duration).sum) 0 scenes).2 = target := by
    rw [rescaleLoop_snd]
    field_simp
  have hnlt : ¬ tol < |(0 : ℚ)| := by
    simp only [abs_zero]
    exact not_lt.mpr htol.le
  have key : enforceTotalDuration tol scenes target =
      (rescaleLoop (target / (scenes.map Scene.duration).sum) 0 scenes).1 := by
    simp only [enforceTotalDuration, hne, hfar, if_false, ite_false, hsnd,
      sub_self, gt_iff_lt, hnlt]
  rw [key]
  refine ⟨?_, ?_, rescaleLoop_length _ _ _, rescaleLoop_contiguous _ _ _,
    rescaleLoop_consistent _ _ _, ?_⟩
  · rw [rescaleLoop_dur_sum]
    field_simp
  · rw [rescaleLoop_dur_sum]
    have : target / (scenes.map Scene.duration).sum * (scenes.map Scene.duration).sum
        = target := by field_simp
    rw [this, sub_self, abs_zero]
    exact htol
  · obtain ⟨s, l, rfl⟩ := List.exists_cons_of_ne_nil hne
    exact rescaleLoop_head_start _ _ s l default

/-- Witness for the amended C2 at the repository's own test input:
three scenes summing to 35, target 45. -/
theorem enforce_total_duration_rescales_witness :
    ((enforceTotalDuration (1 / 1000) [⟨0, 10, 10⟩, ⟨10, 25, 15⟩, ⟨25, 35, 10⟩] 45).map
        Scene.duration).sum = 45 ∧
    |((enforceTotalDuration (1 / 1000) [⟨0, 10, 10⟩, ⟨10, 25, 15⟩, ⟨25, 35, 10⟩] 45).map
        Scene.duration).sum - 45| < 1 / 1000 ∧
    (enforceTotalDuration (1 / 1000) [⟨0, 10, 10⟩, ⟨10, 25, 15⟩, ⟨25, 35, 10⟩] 45).length =
      ([⟨0, 10, 10⟩, ⟨10, 25, 15⟩, ⟨25, 35, 10⟩] : List Scene).length ∧
    Contiguous (enforceTotalDuration (1 / 1000) [⟨0, 10, 10⟩, ⟨10, 25, 15⟩, ⟨25, 35, 10⟩] 45) ∧
    DurationsConsistent
      (enforceTotalDuration (1 / 1000) [⟨0, 10, 10⟩, ⟨10, 25, 15⟩, ⟨25, 35, 10⟩] 45) ∧
    ((enforceTotalDuration (1 / 1000) [⟨0, 10, 10⟩, ⟨10, 25, 15⟩, ⟨25, 35, 10⟩] 45).getD 0
        default).start_time = 0 :=
  enforce_total_duration_rescales (1 / 1000) 45 [⟨0, 10, 10⟩, ⟨10, 25, 15⟩, ⟨25, 35, 10⟩]
    (by simp) (by norm_num) (by norm_num) (by norm_num [abs_lt])

/-! ### Lemmas on the tracking distribution loop -/

theorem distributeLoop_length (base : ℚ) : ∀ (n i : Nat) (r : ℚ),
    (distributeLoop base n i r).length = n
  | 0, _, _ => rfl
  | n + 1, i, r => by
    show (_ :: distributeLoop base n (i + 1) _).length = n + 1
    simp [distributeLoop_length base n]

theorem distributeLoop_sum (base : ℚ) : ∀ (n i : Nat) (r : ℚ),
    (distributeLoop base (n + 1) i r).sum = ((i : ℚ) + (n + 1)) * base - r
  | 0, i, r => by
    show ((((i : ℚ) + 1) * base - r) :: []).sum = _
    push_cast
    simp
  | n + 1, i, r => by
    rw [show distributeLoop base (n + 1 + 1) i r
        = (((i : ℚ) + 1) * base - r)
          :: distributeLoop base (n + 1) (i + 1) (r + (((i : ℚ) + 1) * base - r)) from rfl]
    rw [List.sum_cons, distributeLoop_sum base n (i + 1)]
    push_cast
    ring

theorem distributeLoop_getD (base : ℚ) : ∀ (n i : Nat) (r : ℚ) (j : Nat), j < n →
    (distributeLoop base n i r).getD j 0 =
      ((i : ℚ) + j + 1) * base - (r + ((distributeLoop base n i r).take j).sum)
  | 0, _, _, j, hj => absurd hj (Nat.not_lt_zero j)
  | n + 1, i, r, 0, _ => by
    rw [show distributeLoop base (n + 1) i r
        = (((i : ℚ) + 1) * base - r)
          :: distributeLoop base n (i + 1) (r + (((i : ℚ) + 1) * base - r)) from rfl]
    simp
  | n + 1, i, r, j + 1, hj => by
    have ih := distributeLoop_getD base n (i + 1) (r + (((i : ℚ) + 1) * base - r)) j
      (Nat.lt_of_succ_lt_succ hj)
    rw [show distributeLoop base (n + 1) i r
        = (((i : ℚ) + 1) * base - r)
          :: distributeLoop base n (i + 1) (r + (((i : ℚ) + 1) * base - r)) from rfl]
    rw [List.getD_cons_succ, ih, List.take_succ_cons, List.sum_cons]
    push_cast
    ring

/-- C1: with no min/max constraints and positive inputs,
`distribute_scene_durations` returns exactly `scene_count` durations, the
`j`-th of which is `(j+1) * total/scene_count` minus the running total of
the previously assigned durations (prefix tracking), and the sum is within
ε = 0.001 of the total (in exact arithmetic it equals the total, so no
final adjustment fires). -/
theorem distribute_prefix_tracking (total : ℚ) (count : Nat)
    (hpos : 0 < total) (hcount : 0 < count) :
    ∃ ds, distributeSceneDurations total count none none false = .ok ds ∧
      ds.length = count ∧
      (∀ j, j < count →
        ds.getD j 0 = ((j : ℚ) + 1) * (total / (count : ℚ)) - (ds.take j).sum) ∧
      |ds.sum - total| < 1 / 1000 := by
  have hc0 : count ≠ 0 := Nat.pos_iff_ne_zero.mp hcount
  have hsum : (distributeLoop (total / (count : ℚ)) count 0 0).sum = total := by
    obtain ⟨m, rfl⟩ := Nat.exists_eq_succ_of_ne_zero hc0
    have hm : ((m : ℚ) + 1) ≠ 0 := by positivity
    rw [distributeLoop_sum]
    push_cast
    field_simp
  have htrack : distributeWithTracking total count false
      = distributeLoop (total / (count : ℚ)) count 0 0 := by
    show (if |(distributeLoop (total / (count : ℚ)) count 0 0).sum - total| > 1 / 1000
        then addToLast (total - (distributeLoop (total / (count : ℚ)) count 0 0).sum)
          (distributeLoop (total / (count : ℚ)) count 0 0)
        else distributeLoop (total / (count : ℚ)) count 0 0)
      = distributeLoop (total / (count : ℚ)) count 0 0
    rw [hsum, sub_self, abs_zero, if_neg (by norm_num)]
  have hds : distributeSceneDurations total count none none false
      = .ok (distributeWithTracking total count false) := by
    unfold distributeSceneDurations
    rw [if_neg (not_le.mpr hpos), if_neg hc0]
    rfl
  refine ⟨_, hds, ?_, ?_, ?_⟩
  · rw [htrack, distributeLoop_length]
  · intro j hj
    rw [htrack]
    have h := distributeLoop_getD (total / (count : ℚ)) count 0 0 j hj
    simpa using h
  · rw [htrack, hsum, sub_self, abs_zero]
    norm_num

/-- Witness for C1 at `total = 7`, `scene_count = 3`. -/
theorem distribute_prefix_tracking_witness :
    ∃ ds, distributeSceneDurations 7 3 none none false = .ok ds ∧
      ds.length = 3 ∧
      (∀ j, j < 3 →
        ds.getD j 0 = ((j : ℚ) + 1) * (7 / ((3 : Nat) : ℚ)) - (ds.take j).sum) ∧
      |ds.sum - 7| < 1 / 1000 :=
  distribute_prefix_tracking 7 3 (by norm_num) (by norm_num)

/-! ### Characterizing the gap/overlap report -/

/-- Spec-side shorthand: `next.start_time - current.end_time` on a list of
fully-populated scenes. -/
def sceneGap (scenes : List Scene) (i : Nat) : ℚ :=
  (scenes.getD (i + 1) default).start_time - (scenes.getD i default).end_time

theorem raw_getD_start : ∀ (scenes : List Scene) (i : Nat),
    rawStart ((scenes.map Scene.toRaw).getD i default) =
      (scenes.getD i default).start_time
  | [], _ => rfl
  | _ :: _, 0 => rfl
  | _ :: rest, i + 1 => raw_getD_start rest i

theorem raw_getD_end : ∀ (scenes : List Scene) (i : Nat),
    rawEnd ((scenes.map Scene.toRaw).getD i default) =
      (scenes.getD i default).end_time
  | [], _ => rfl
  | _ :: _, 0 => rfl
  | _ :: rest, i + 1 => raw_getD_end rest i

theorem gapAt_map (scenes : List Scene) (i : Nat) :
    gapAt (scenes.map Scene.toRaw) i = sceneGap scenes i := by
  unfold gapAt sceneGap
  rw [raw_getD_start, raw_getD_end]

theorem continuityReport_gap_iff (tol : ℚ) (raws : List RawScene) (i : Nat) :
    (∃ g ∈ (continuityReport tol raws).gaps, g.after_scene = i) ↔
      i + 1 < raws.length ∧ tol < gapAt raws i := by
  simp only [continuityReport, List.mem_filterMap, List.mem_range]
  constructor
  · rintro ⟨g, ⟨j, hj, hfj⟩, hgi⟩
    by_cases hc : gapAt raws j > tol
    · rw [if_pos hc] at hfj
      cases hfj
      obtain rfl : j = i := hgi
      exact ⟨by omega, hc⟩
    · rw [if_neg hc] at hfj
      exact absurd hfj (by simp)
  · rintro ⟨hi, hc⟩
    exact ⟨⟨i, rawEnd (raws.getD i default), rawStart (raws.getD (i + 1) default),
      gapAt raws i⟩, ⟨i, by omega, by rw [if_pos hc]⟩, rfl⟩

theorem continuityReport_overlap_iff (tol : ℚ) (raws : List RawScene) (i : Nat) :
    (∃ o ∈ (continuityReport tol raws).overlaps, o.scene1 = i) ↔
      i + 1 < raws.length ∧ gapAt raws i < -tol := by
  simp only [continuityReport, List.mem_filterMap, List.mem_range]
  constructor
  · rintro ⟨o, ⟨j, hj, hfj⟩, hoi⟩
    by_cases hc : gapAt raws j < -tol
    · rw [if_pos hc] at hfj
      cases hfj
      obtain rfl : j = i := hoi
      exact ⟨by omega, hc⟩
    · rw [if_neg hc] at hfj
      exact absurd hfj (by simp)
  · rintro ⟨hi, hc⟩
    exact ⟨⟨i, i + 1, rawStart (raws.getD (i + 1) default),
      rawEnd (raws.getD i default), |gapAt raws i|⟩, ⟨i, by omega, by rw [if_pos hc]⟩, rfl⟩

/-- On a structurally valid timeline, `validate_scene_continuity` returns
the continuity report for the per-call tolerance. -/
theorem validateScenes_ok_of_valid (dtol tol : ℚ) (scenes : List Scene)
    (hval : validateSceneData dtol (scenes.map Scene.toRaw) = .ok ()) :
    validateScenes dtol (some tol) scenes =
      .ok (continuityResult tol (scenes.map Scene.toRaw)) := by
  unfold validateScenes validateSceneContinuity
  rw [hval]
  rfl

/-- C5: on every structurally valid timeline, `validate_scene_continuity`
records a gap for the adjacent pair at `i` exactly when
`next.start_time - current.end_time > ε` and an overlap exactly when that
difference is `< -ε`; and on the scenes `[0,10], [12,27], [30,45]` it
reports exactly the gaps `(after_scene 0, 2.0)` and `(after_scene 1, 3.0)`
and no overlaps. -/
theorem validate_classifies_gaps_overlaps :
    (∀ (dtol tol : ℚ) (scenes : List Scene),
      validateSceneData dtol (scenes.map Scene.toRaw) = .ok () →
      ∃ r, validateScenes dtol (some tol) scenes = .ok r ∧
        (∀ i, (∃ g ∈ r.gaps, g.after_scene = i) ↔
          i + 1 < scenes.length ∧ tol < sceneGap scenes i) ∧
        (∀ i, (∃ o ∈ r.overlaps, o.scene1 = i) ↔
          i + 1 < scenes.length ∧ sceneGap scenes i < -tol)) ∧
    (∃ r, validateScenes (1 / 1000) none [⟨0, 10, 10⟩, ⟨12, 27, 15⟩, ⟨30, 45, 15⟩] = .ok r ∧
      r.gaps.map (fun g => (g.after_scene, g.gap_duration)) = [(0, 2), (1, 3)] ∧
      r.overlaps = []) := by
  constructor
  · intro dtol tol scenes hval
    refine ⟨continuityResult tol (scenes.map Scene.toRaw),
      validateScenes_ok_of_valid dtol tol scenes hval, ?_, ?_⟩
    · intro i
      match scenes with
      | [] => simp [continuityResult]
      | [s] => simp [continuityResult]
      | s :: t :: rest =>
        rw [show continuityResult tol ((s :: t :: rest).map Scene.toRaw)
            = continuityReport tol ((s :: t :: rest).map Scene.toRaw) from by
          simp [continuityResult]]
        rw [continuityReport_gap_iff, gapAt_map, List.length_map]
    · intro i
      match scenes with
      | [] => simp [continuityResult]
      | [s] => simp [continuityResult]
      | s :: t :: rest =>
        rw [show continuityResult tol ((s :: t :: rest).map Scene.toRaw)
            = continuityReport tol ((s :: t :: rest).map Scene.toRaw) from by
          simp [continuityResult]]
        rw [continuityReport_overlap_iff, gapAt_map, List.length_map]
  · refine ⟨continuityResult (1 / 1000)
      (([⟨0, 10, 10⟩, ⟨12, 27, 15⟩, ⟨30, 45, 15⟩] : List Scene).map Scene.toRaw),
      ?_, ?_, ?_⟩
    · norm_num [validateScenes, validateSceneContinuity, validateSceneData,
        validateSceneDataFrom, checkScene, Scene.toRaw, lt_abs, abs_lt]
    · norm_num [continuityResult, continuityReport, gapAt, rawStart, rawEnd,
        rawDur, Scene.toRaw, List.range_succ, List.filterMap_cons]
    · norm_num [continuityResult, continuityReport, gapAt, rawStart, rawEnd,
        rawDur, Scene.toRaw, List.range_succ, List.filterMap_cons]

/-- Witness for C5 at the example timeline `[0,10], [12,27], [30,45]`. -/
theorem validate_classifies_gaps_overlaps_witness :
    ∃ r, validateScenes (1 / 1000) (some (1 / 1000))
        [⟨0, 10, 10⟩, ⟨12, 27, 15⟩, ⟨30, 45, 15⟩] = .ok r ∧
      (∀ i, (∃ g ∈ r.gaps, g.after_scene = i) ↔
        i + 1 < ([⟨0, 10, 10⟩, ⟨12, 27, 15⟩, ⟨30, 45, 15⟩] : List Scene).length ∧
        1 / 1000 < sceneGap [⟨0, 10, 10⟩, ⟨12, 27, 15⟩, ⟨30, 45, 15⟩] i) ∧
      (∀ i, (∃ o ∈ r.overlaps, o.scene1 = i) ↔
        i + 1 < ([⟨0, 10, 10⟩, ⟨12, 27, 15⟩, ⟨30, 45, 15⟩] : List Scene).length ∧
        sceneGap [⟨0, 10, 10⟩, ⟨12, 27, 15⟩, ⟨30, 45, 15⟩] i < -(1 / 1000)) :=
  validate_classifies_gaps_overlaps.1 (1 / 1000) (1 / 1000)
    [⟨0, 10, 10⟩, ⟨12, 27, 15⟩, ⟨30, 45, 15⟩]
    (by norm_num [validateSceneData, validateSceneDataFrom, checkScene,
      Scene.toRaw, lt_abs, abs_lt])

/-! ### Structural validation errors -/

/-- Spec-side predicate: the structural invariants of §3, violated when a
required key is missing, `end_time ≤ start_time`, the `duration` field
deviates from the span by more than the tolerance, `start_time < 0`, or
`duration ≤ 0`. -/
def violatesInvariant (tol : ℚ) (s : RawScene) : Prop :=
  s.start_time = none ∨ s.end_time = none ∨ s.duration = none ∨
  rawEnd s ≤ rawStart s ∨ |(rawEnd s - rawStart s) - rawDur s| > tol ∨
  rawStart s < 0 ∨ rawDur s ≤ 0

/-- The invariant named by a `_validate_scene_data` error holds of the
scene the error points at. -/
def errMatches (tol : ℚ) (e : SceneErr) (s : RawScene) : Prop :=
  match e with
  | .missingField _ .startT => s.start_time = none
  | .missingField _ .endT => s.end_time = none
  | .missingField _ .durT => s.duration = none
  | .endNotAfterStart _ => rawEnd s ≤ rawStart s
  | .durationMismatch _ => |(rawEnd s - rawStart s) - rawDur s| > tol
  | .negativeValues _ => rawStart s < 0 ∨ rawDur s ≤ 0

theorem errMatches_violates (tol : ℚ) (e : SceneErr) (s : RawScene)
    (h : errMatches tol e s) : violatesInvariant tol s := by
  unfold violatesInvariant
  cases e with
  | missingField i f => cases f <;> simp only [errMatches] at h <;> tauto
  | endNotAfterStart i => simp only [errMatches] at h; tauto
  | durationMismatch i => simp only [errMatches] at h; tauto
  | negativeValues i => simp only [errMatches] at h; tauto

theorem checkScene_ok_iff (tol : ℚ) (i : Nat) (s : RawScene) :
    checkScene tol i s = .ok () ↔ ¬ violatesInvariant tol s := by
  obtain ⟨st?, en?, du?⟩ := s
  unfold checkScene violatesInvariant rawStart rawEnd rawDur
  cases st? with
  | none => simp
  | some st =>
    cases en? with
    | none => simp
    | some en =>
      cases du? with
      | none => simp
      | some du =>
        simp only [Option.getD_some]
        split_ifs with h1 h2 h3 <;> simp_all

theorem checkScene_error (tol : ℚ) (i : Nat) (s : RawScene) (e : SceneErr)
    (h : checkScene tol i s = .error e) : e.index = i ∧ errMatches tol e s := by
  obtain ⟨st?, en?, du?⟩ := s
  cases st? with
  | none =>
    simp only [checkScene] at h
    cases h
    exact ⟨rfl, rfl⟩
  | some st =>
    cases en? with
    | none =>
      simp only [checkScene] at h
      cases h
      exact ⟨rfl, rfl⟩
    | some en =>
      cases du? with
      | none =>
        simp only [checkScene] at h
        cases h
        exact ⟨rfl, rfl⟩
      | some du =>
        simp only [checkScene] at h
        split_ifs at h with h1 h2 h3 <;> cases h
        · exact ⟨rfl, by simpa [errMatches, rawStart, rawEnd, rawDur] using h1⟩
        · exact ⟨rfl, by simpa [errMatches, rawStart, rawEnd, rawDur] using h2⟩
        · exact ⟨rfl, by simpa [errMatches, rawStart, rawEnd, rawDur] using h3⟩

theorem validateSceneDataFrom_ok_iff (tol : ℚ) : ∀ (i : Nat) (scenes : List RawScene),
    validateSceneDataFrom tol i scenes = .ok () ↔
      ∀ s ∈ scenes, ¬ violatesInvariant tol s
  | _, [] => by simp [validateSceneDataFrom]
  | i, s :: rest => by
    rw [show validateSceneDataFrom tol i (s :: rest)
        = (match checkScene tol i s with
           | .error e => .error e
           | .ok _ => validateSceneDataFrom tol (i + 1) rest) from rfl]
    cases hc : checkScene tol i s with
    | error e =>
      have hv : violatesInvariant tol s := by
        by_contra hnv
        have hok := (checkScene_ok_iff tol i s).mpr hnv
        rw [hc] at hok
        exact Except.noConfusion hok
      simp only [List.forall_mem_cons]
      constructor
      · intro hcontr; exact absurd hcontr (by simp)
      · rintro ⟨h1, _⟩; exact absurd hv h1
    | ok u =>
      cases u
      rw [validateSceneDataFrom_ok_iff tol (i + 1) rest]
      simp only [List.forall_mem_cons]
      have hns : ¬ violatesInvariant tol s := (checkScene_ok_iff tol i s).mp hc
      tauto

theorem validateSceneDataFrom_error (tol : ℚ) :
    ∀ (i : Nat) (scenes : List RawScene) (e : SceneErr),
    validateSceneDataFrom tol i scenes = .error e →
    i ≤ e.index ∧ e.index - i < scenes.length ∧
    violatesInvariant tol (scenes.getD (e.index - i) default) ∧
    errMatches tol e (scenes.getD (e.index - i) default)
  | _, [], _, h => by simp [validateSceneDataFrom] at h
  | i, s :: rest, e, h => by
    rw [show validateSceneDataFrom tol i (s :: rest)
        = (match checkScene tol i s with
           | .error e => .error e
           | .ok _ => validateSceneDataFrom tol (i + 1) rest) from rfl] at h
    cases hc : checkScene tol i s with
    | error e2 =>
      rw [hc] at h
      have hee : e2 = e := Except.error.inj h
      obtain ⟨hidx, hmatch⟩ := checkScene_error tol i s e2 hc
      rw [← hee]
      have h0 : e2.index - i = 0 := by omega
      rw [h0, List.getD_cons_zero]
      exact ⟨by omega, by simp, errMatches_violates tol e2 s hmatch, hmatch⟩
    | ok u =>
      cases u
      rw [hc] at h
      obtain ⟨h1, h2, h3, h4⟩ := validateSceneDataFrom_error tol (i + 1) rest e h
      have hs : (s :: rest).getD (e.index - i) default
          = rest.getD (e.index - (i + 1)) default := by
        rw [show e.index - i = (e.index - (i + 1)) + 1 from by omega,
          List.getD_cons_succ]
      rw [hs]
      exact ⟨by omega, by simp only [List.length_cons]; omega, h3, h4⟩

theorem getD_mem {α : Type} (l : List α) (i : Nat) (d : α) (hi : i < l.length) :
    l.getD i d ∈ l := by
  rw [List.getD_eq_getElem?_getD, List.getElem?_eq_getElem hi, Option.getD_some]
  exact List.getElem_mem hi

/-- Errors of `validate_scene_continuity` are exactly the structural errors
of `_validate_scene_data` (no partial gap/overlap report survives one). -/
theorem validateSceneContinuity_error_iff (dtol : ℚ) (t? : Option ℚ)
    (scenes : List RawScene) (e : SceneErr) :
    validateSceneContinuity dtol t? scenes = .error e ↔
      validateSceneData dtol scenes = .error e := by
  unfold validateSceneContinuity
  cases h : validateSceneData dtol scenes with
  | error e' => simp
  | ok u => simp

/-- C6: a timeline containing a scene that violates a structural invariant
makes `validate_scene_continuity` raise an error naming the offending scene
index and failed check, and no partial gap/overlap report is produced
(every error of `validate` is a structural error); a timeline with no such
violation raises no error. -/
theorem validate_structural_error_handling :
    (∀ (dtol : ℚ) (t? : Option ℚ) (scenes : List RawScene) (e : SceneErr),
      validateSceneContinuity dtol t? scenes = .error e ↔
        validateSceneData dtol scenes = .error e) ∧
    (∀ (dtol : ℚ) (t? : Option ℚ) (scenes : List RawScene),
      (∃ i, i < scenes.length ∧ violatesInvariant dtol (scenes.getD i default)) →
      ∃ e, validateSceneContinuity dtol t? scenes = .error e ∧
        e.index < scenes.length ∧
        violatesInvariant dtol (scenes.getD e.index default) ∧
        errMatches dtol e (scenes.getD e.index default)) ∧
    (∀ (dtol : ℚ) (t? : Option ℚ) (scenes : List RawScene),
      (∀ i, i < scenes.length → ¬ violatesInvariant dtol (scenes.getD i default)) →
      ∃ r, validateSceneContinuity dtol t? scenes = .ok r) := by
  refine ⟨validateSceneContinuity_error_iff, ?_, ?_⟩
  · intro dtol t? scenes hviol
    cases hdata : validateSceneData dtol scenes with
    | error e =>
      obtain ⟨h1, h2, h3, h4⟩ := validateSceneDataFrom_error dtol 0 scenes e hdata
      simp only [Nat.sub_zero] at h2 h3 h4
      exact ⟨e, (validateSceneContinuity_error_iff dtol t? scenes e).mpr hdata,
        h2, h3, h4⟩
    | ok u =>
      cases u
      obtain ⟨i, hi, hv⟩ := hviol
      have hall := (validateSceneDataFrom_ok_iff dtol 0 scenes).mp hdata
      exact absurd hv (hall _ (getD_mem scenes i default hi))
  · intro dtol t? scenes hclean
    have hok : validateSceneData dtol scenes = .ok () := by
      unfold validateSceneData
      rw [validateSceneDataFrom_ok_iff]
      intro s hs
      obtain ⟨j, hj, rfl⟩ := List.mem_iff_getElem.mp hs
      have : scenes.getD j default = scenes[j] := by
        rw [List.getD_eq_getElem?_getD, List.getElem?_eq_getElem hj]
        rfl
      rw [← this]
      exact hclean j hj
    unfold validateSceneContinuity
    rw [hok]
    exact ⟨_, rfl⟩

/-- Witness for C6: a scene `[1,0]` (end before start) makes validation
raise, naming scene 0 and the `end_time ≤ start_time` check. -/
theorem validate_structural_error_handling_witness :
    ∃ e, validateSceneContinuity (1 / 1000) none [Scene.toRaw ⟨1, 0, 5⟩] = .error e ∧
      e.index < ([Scene.toRaw ⟨1, 0, 5⟩] : List RawScene).length ∧
      violatesInvariant (1 / 1000) (([Scene.toRaw ⟨1, 0, 5⟩] : List RawScene).getD e.index default) ∧
      errMatches (1 / 1000) e (([Scene.toRaw ⟨1, 0, 5⟩] : List RawScene).getD e.index default) :=
  validate_structural_error_handling.2.1 (1 / 1000) none [Scene.toRaw ⟨1, 0, 5⟩]
    ⟨0, by simp, by norm_num [violatesInvariant, rawStart, rawEnd, rawDur, Scene.toRaw]⟩

/-! ### Heap-level embedding of the repair operations

The Python repair operations receive a list of references to shared scene
dictionaries, call `copy.deepcopy`, and mutate only the copy.  To state the
no-mutation claim we re-embed them over an explicit heap: a `Heap` is the
store of all allocated scene dictionaries, a timeline is a list of
references (indices) into it, `deepcopy` allocates fresh cells at the end
of the store, and every dictionary mutation of the source becomes a
`writeH`.  The loops below follow the same source lines as the value-level
embeddings above. -/

abbrev Heap := List Scene

/-- Dereference a scene dictionary. -/
def readH (h : Heap) (a : Nat) : Scene := h.getD a default

/-- Mutate the scene dictionary behind reference `a`. -/
def writeH (h : Heap) (a : Nat) (s : Scene) : Heap := h.set a s

/-- `copy.deepcopy(scenes)`: allocate fresh cells holding copies of the
scenes behind `addrs`, returning the grown heap and the fresh references. -/
def deepcopy (h : Heap) (addrs : List Nat) : Heap × List Nat :=
  (h ++ addrs.map (readH h), List.range' h.length addrs.length)

/-- Iteration `i` of the `fix_overlaps_trim_previous` loop, on the heap. -/
def fixOverlapsStepH (cs : List Nat) (hh : Heap) (i : Nat) : Heap :=
  let cur := readH hh (cs.getD i 0)
  let next := readH hh (cs.getD (i + 1) 0)
  if cur.end_time > next.start_time then
    if next.start_time - cur.start_time ≤ 0 then
      writeH hh (cs.getD i 0) ⟨cur.start_time, cur.start_time + 1 / 10, 1 / 10⟩
    else
      writeH hh (cs.getD i 0)
        ⟨cur.start_time, next.start_time, next.start_time - cur.start_time⟩
  else hh

/-- `fix_overlaps_trim_previous` on the heap: deepcopy, then the loop over
`range(len(fixed_scenes) - 1)` mutating only the copied cells. -/
def fixOverlapsTrimPreviousH (h : Heap) (addrs : List Nat) : Heap × List Nat :=
  if addrs = [] then (h, addrs)
  else
    ((List.range (addrs.length - 1)).foldl
      (fixOverlapsStepH (deepcopy h addrs).2) (deepcopy h addrs).1,
     (deepcopy h addrs).2)

/-- Iteration `i` of the `fix_gaps_shift_following` loop, on the heap. -/
def shiftStepH (tol : ℚ) (cs : List Nat) (hh : Heap) (i : Nat) : Heap :=
  let cur := readH hh (cs.getD i 0)
  let prev := readH hh (cs.getD (i - 1) 0)
  let gap := cur.start_time - prev.end_time
  if gap > tol then
    writeH hh (cs.getD i 0) ⟨cur.start_time - gap, cur.end_time - gap, cur.duration⟩
  else hh

/-- `fix_gaps_shift_following` on the heap: the loop runs over
`range(1, len(fixed_scenes))`. -/
def fixGapsShiftFollowingH (tol : ℚ) (h : Heap) (addrs : List Nat) : Heap × List Nat :=
  if addrs = [] then (h, addrs)
  else
    ((List.range' 1 (addrs.length - 1)).foldl
      (shiftStepH tol (deepcopy h addrs).2) (deepcopy h addrs).1,
     (deepcopy h addrs).2)

/-- Iteration `i` of the `fix_gaps_extend_previous` loop, on the heap:
extend the current scene, and under a truthy missed `min_scene_duration`
extend further and shift every following copied scene. -/
def extendStepH (tol : ℚ) (minD : Option ℚ) (cs : List Nat) (hh : Heap) (i : Nat) : Heap :=
  let cur := readH hh (cs.getD i 0)
  let next := readH hh (cs.getD (i + 1) 0)
  let gap := next.start_time - cur.end_time
  if gap > tol then
    let cur1 : Scene := ⟨cur.start_time, next.start_time, next.start_time - cur.start_time⟩
    match minD with
    | some m =>
      if m ≠ 0 ∧ cur1.duration < m then
        (List.range' (i + 1) (cs.length - (i + 1))).foldl
          (fun hh' j =>
            writeH hh' (cs.getD j 0) (shiftScene (m - cur1.duration) (readH hh' (cs.getD j 0))))
          (writeH (writeH hh (cs.getD i 0) cur1) (cs.getD i 0)
            ⟨cur1.start_time, cur1.end_time + (m - cur1.duration), m⟩)
      else writeH hh (cs.getD i 0) cur1
    | none => writeH hh (cs.getD i 0) cur1
  else hh

/-- `fix_gaps_extend_previous` on the heap. -/
def fixGapsExtendPreviousH (tol : ℚ) (minD : Option ℚ)
    (h : Heap) (addrs : List Nat) : Heap × List Nat :=
  if addrs = [] then (h, addrs)
  else
    ((List.range (addrs.length - 1)).foldl
      (extendStepH tol minD (deepcopy h addrs).2) (deepcopy h addrs).1,
     (deepcopy h addrs).2)

/-- One iteration of the rescale loop of `enforce_total_duration`, on the
heap, carrying `cumulative_time`. -/
def rescaleStepH (factor : ℚ) (cs : List Nat) (st : Heap × ℚ) (i : Nat) : Heap × ℚ :=
  let s := readH st.1 (cs.getD i 0)
  let d := s.duration * factor
  (writeH st.1 (cs.getD i 0) ⟨st.2, st.2 + d, d⟩, st.2 + d)

/-- `enforce_total_duration` on the heap. -/
def enforceTotalDurationH (tol : ℚ) (h : Heap) (addrs : List Nat)
    (target : ℚ) : Heap × List Nat :=
  if addrs = [] then (h, addrs)
  else
    let h1 := (deepcopy h addrs).1
    let cs := (deepcopy h addrs).2
    let currentTotal := ((cs.map (readH h1)).map Scene.duration).sum
    if |currentTotal - target| < tol then (h1, cs)
    else
      let st := (List.range cs.length).foldl (rescaleStepH (target / currentTotal) cs) (h1, 0)
      if |st.2 - target| > tol then
        (writeH st.1 (cs.getD (cs.length - 1) 0)
          ⟨(readH st.1 (cs.getD (cs.length - 1) 0)).start_time,
           (readH st.1 (cs.getD (cs.length - 1) 0)).end_time + (target - st.2),
           (readH st.1 (cs.getD (cs.length - 1) 0)).duration + (target - st.2)⟩, cs)
      else (st.1, cs)

/-- `fix_all_timing_issues` on the heap: the two repair passes, the
re-validation (a pure read of the copied cells), and the propagated
`ValueError` when that re-validation raises. -/
def fixAllTimingIssuesH (tol : ℚ) (minD : Option ℚ) (h : Heap)
    (addrs : List Nat) : Heap × Except SceneErr (List Nat) :=
  if addrs = [] then (h, .ok addrs)
  else
    let p1 := fixOverlapsTrimPreviousH h addrs
    let p2 := fixGapsExtendPreviousH tol minD p1.1 p1.2
    match validateScenes tol none (p2.2.map (readH p2.1)) with
    | .error e => (p2.1, .error e)
    | .ok v =>
      if v.is_valid then (p2.1, .ok p2.2)
      else
        let p3 := fixGapsShiftFollowingH tol p2.1 addrs
        let p4 := fixOverlapsTrimPreviousH p3.1 p3.2
        (p4.1, .ok p4.2)

/-! ### Frame lemmas: cells below the allocation point are never written -/

theorem range'_getD (N len i : Nat) (hi : i < len) :
    (List.range' N len).getD i 0 = N + i := by
  rw [List.getD_eq_getElem?_getD,
    List.getElem?_eq_getElem (by simpa using hi), Option.getD_some]
  simp

theorem writeH_getElem? (hh : Heap) (b a : Nat) (s : Scene) (hne : b ≠ a) :
    (writeH hh b s)[a]? = hh[a]? := List.getElem?_set_ne hne

theorem writeH_length (hh : Heap) (b : Nat) (s : Scene) :
    (writeH hh b s).length = hh.length := List.length_set hh b s

theorem foldl_heap_preserved {β : Type} (f : Heap → β → Heap) (a : Nat) :
    ∀ (l : List β) (hh : Heap),
    (∀ (hh' : Heap) (x : β), x ∈ l →
      (f hh' x)[a]? = hh'[a]? ∧ (f hh' x).length = hh'.length) →
    (l.foldl f hh)[a]? = hh[a]? ∧ (l.foldl f hh).length = hh.length
  | [], _, _ => ⟨rfl, rfl⟩
  | x :: l, hh, H => by
    rw [List.foldl_cons]
    have hx := H hh x (List.mem_cons_self x l)
    have ih := foldl_heap_preserved f a l (f hh x)
      (fun hh' y hy => H hh' y (List.mem_cons_of_mem x hy))
    exact ⟨ih.1.trans hx.1, ih.2.trans hx.2⟩

theorem foldl_pair_preserved {β : Type} (f : Heap × ℚ → β → Heap × ℚ) (a : Nat) :
    ∀ (l : List β) (st : Heap × ℚ),
    (∀ (st' : Heap × ℚ) (x : β), x ∈ l →
      (f st' x).1[a]? = st'.1[a]? ∧ (f st' x).1.length = st'.1.length) →
    (l.foldl f st).1[a]? = st.1[a]? ∧ (l.foldl f st).1.length = st.1.length
  | [], _, _ => ⟨rfl, rfl⟩
  | x :: l, st, H => by
    rw [List.foldl_cons]
    have hx := H st x (List.mem_cons_self x l)
    have ih := foldl_pair_preserved f a l (f st x)
      (fun st' y hy => H st' y (List.mem_cons_of_mem x hy))
    exact ⟨ih.1.trans hx.1, ih.2.trans hx.2⟩

theorem fixOverlapsStepH_preserve (N len a : Nat) (ha : a < N)
    (i : Nat) (hi : i < len) (hh : Heap) :
    (fixOverlapsStepH (List.range' N len) hh i)[a]? = hh[a]? ∧
    (fixOverlapsStepH (List.range' N len) hh i).length = hh.length := by
  have haddr := range'_getD N len i hi
  simp only [fixOverlapsStepH, haddr]
  split_ifs
  · exact ⟨writeH_getElem? hh (N + i) a _ (by omega), writeH_length hh (N + i) _⟩
  · exact ⟨writeH_getElem? hh (N + i) a _ (by omega), writeH_length hh (N + i) _⟩
  · exact ⟨rfl, rfl⟩

theorem shiftStepH_preserve (tol : ℚ) (N len a : Nat) (ha : a < N)
    (i : Nat) (hi : i < len) (hh : Heap) :
    (shiftStepH tol (List.range' N len) hh i)[a]? = hh[a]? ∧
    (shiftStepH tol (List.range' N len) hh i).length = hh.length := by
  have haddr := range'_getD N len i hi
  simp only [shiftStepH, haddr]
  split_ifs
  · exact ⟨writeH_getElem? hh (N + i) a _ (by omega), writeH_length hh (N + i) _⟩
  · exact ⟨rfl, rfl⟩

theorem shiftFoldPreserve (N len a : Nat) (ha : a < N) (i : Nat) (amt : ℚ) (b : Heap) :
    ((List.range' (i + 1) (len - (i + 1))).foldl
      (fun hh' j => writeH hh' ((List.range' N len).getD j 0)
        (shiftScene amt (readH hh' ((List.range' N len).getD j 0)))) b)[a]? = b[a]? ∧
    ((List.range' (i + 1) (len - (i + 1))).foldl
      (fun hh' j => writeH hh' ((List.range' N len).getD j 0)
        (shiftScene amt (readH hh' ((List.range' N len).getD j 0)))) b).length = b.length := by
  refine foldl_heap_preserved _ a _ b ?_
  intro hh' j hj
  obtain ⟨k, hk, rfl⟩ := List.mem_range'.mp hj
  rw [range'_getD N len _ (by omega)]
  exact ⟨writeH_getElem? hh' _ a _ (by omega), writeH_length hh' _ _⟩

theorem extendStepH_preserve (tol : ℚ) (minD : Option ℚ) (N len a : Nat) (ha : a < N)
    (i : Nat) (hi : i < len) (hh : Heap) :
    (extendStepH tol minD (List.range' N len) hh i)[a]? = hh[a]? ∧
    (extendStepH tol minD (List.range' N len) hh i).length = hh.length := by
  have haddr := range'_getD N len i hi
  have hlen : (List.range' N len).length = len := List.length_range' N 1 len
  cases minD with
  | none =>
    simp only [extendStepH, haddr]
    split_ifs
    · exact ⟨writeH_getElem? hh (N + i) a _ (by omega), writeH_length hh (N + i) _⟩
    · exact ⟨rfl, rfl⟩
  | some m =>
    simp only [extendStepH, haddr, hlen]
    split_ifs
    · -- minimum-duration branch: two writes at the copied cell, then the
      -- shift loop over the following copied cells
      constructor
      · exact ((shiftFoldPreserve N len a ha i _ _).1).trans
          ((writeH_getElem? _ (N + i) a _ (by omega)).trans
            (writeH_getElem? hh (N + i) a _ (by omega)))
      · exact ((shiftFoldPreserve N len a ha i _ _).2).trans
          ((writeH_length _ (N + i) _).trans (writeH_length hh (N + i) _))
    · exact ⟨writeH_getElem? hh (N + i) a _ (by omega), writeH_length hh (N + i) _⟩
    · exact ⟨rfl, rfl⟩

theorem rescaleStepH_preserve (factor : ℚ) (N len a : Nat) (ha : a < N)
    (i : Nat) (hi : i < len) (st : Heap × ℚ) :
    (rescaleStepH factor (List.range' N len) st i).1[a]? = st.1[a]? ∧
    (rescaleStepH factor (List.range' N len) st i).1.length = st.1.length := by
  have haddr := range'_getD N len i hi
  simp only [rescaleStepH, haddr]
  exact ⟨writeH_getElem? st.1 (N + i) a _ (by omega), writeH_length st.1 (N + i) _⟩

theorem fixOverlapsTrimPreviousH_frame (h : Heap) (addrs : List Nat) (a : Nat)
    (ha : a < h.length) :
    (fixOverlapsTrimPreviousH h addrs).1[a]? = h[a]? ∧
    h.length ≤ (fixOverlapsTrimPreviousH h addrs).1.length := by
  simp only [fixOverlapsTrimPreviousH, deepcopy]
  split_ifs with he
  · exact ⟨rfl, le_refl _⟩
  · have hsteps : ∀ (hh' : Heap) (x : Nat), x ∈ List.range (addrs.length - 1) →
        (fixOverlapsStepH (List.range' h.length addrs.length) hh' x)[a]? = hh'[a]? ∧
        (fixOverlapsStepH (List.range' h.length addrs.length) hh' x).length = hh'.length := by
      intro hh' x hx
      exact fixOverlapsStepH_preserve h.length addrs.length a ha x
        (by have := List.mem_range.mp hx; omega) hh'
    have hf := foldl_heap_preserved (fixOverlapsStepH (List.range' h.length addrs.length))
      a (List.range (addrs.length - 1)) (h ++ addrs.map (readH h)) hsteps
    refine ⟨hf.1.trans (List.getElem?_append_left ha), ?_⟩
    rw [hf.2]
    simp

theorem fixGapsShiftFollowingH_frame (tol : ℚ) (h : Heap) (addrs : List Nat) (a : Nat)
    (ha : a < h.length) :
    (fixGapsShiftFollowingH tol h addrs).1[a]? = h[a]? ∧
    h.length ≤ (fixGapsShiftFollowingH tol h addrs).1.length := by
  simp only [fixGapsShiftFollowingH, deepcopy]
  split_ifs with he
  · exact ⟨rfl, le_refl _⟩
  · have hsteps : ∀ (hh' : Heap) (x : Nat), x ∈ List.range' 1 (addrs.length - 1) →
        (shiftStepH tol (List.range' h.length addrs.length) hh' x)[a]? = hh'[a]? ∧
        (shiftStepH tol (List.range' h.length addrs.length) hh' x).length = hh'.length := by
      intro hh' x hx
      obtain ⟨k, hk, rfl⟩ := List.mem_range'.mp hx
      exact shiftStepH_preserve tol h.length addrs.length a ha _ (by omega) hh'
    have hf := foldl_heap_preserved (shiftStepH tol (List.range' h.length addrs.length))
      a (List.range' 1 (addrs.length - 1)) (h ++ addrs.map (readH h)) hsteps
    refine ⟨hf.1.trans (List.getElem?_append_left ha), ?_⟩
    rw [hf.2]
    simp

theorem fixGapsExtendPreviousH_frame (tol : ℚ) (minD : Option ℚ)
    (h : Heap) (addrs : List Nat) (a : Nat) (ha : a < h.length) :
    (fixGapsExtendPreviousH tol minD h addrs).1[a]? = h[a]? ∧
    h.length ≤ (fixGapsExtendPreviousH tol minD h addrs).1.length := by
  simp only [fixGapsExtendPreviousH, deepcopy]
  split_ifs with he
  · exact ⟨rfl, le_refl _⟩
  · have hsteps : ∀ (hh' : Heap) (x : Nat), x ∈ List.range (addrs.length - 1) →
        (extendStepH tol minD (List.range' h.length addrs.length) hh' x)[a]? = hh'[a]? ∧
        (extendStepH tol minD (List.range' h.length addrs.length) hh' x).length = hh'.length := by
      intro hh' x hx
      exact extendStepH_preserve tol minD h.length addrs.length a ha x
        (by have := List.mem_range.mp hx; omega) hh'
    have hf := foldl_heap_preserved (extendStepH tol minD (List.range' h.length addrs.length))
      a (List.range (addrs.length - 1)) (h ++ addrs.map (readH h)) hsteps
    refine ⟨hf.1.trans (List.getElem?_append_left ha), ?_⟩
    rw [hf.2]
    simp

theorem enforceTotalDurationH_frame (tol target : ℚ) (h : Heap) (addrs : List Nat)
    (a : Nat) (ha : a < h.length) :
    (enforceTotalDurationH tol h addrs target).1[a]? = h[a]? ∧
    h.length ≤ (enforceTotalDurationH tol h addrs target).1.length := by
  have hbase_get : (h ++ addrs.map (readH h))[a]? = h[a]? := List.getElem?_append_left ha
  have hbase_len : (h ++ addrs.map (readH h)).length = h.length + addrs.length := by simp
  have hsteps : ∀ (factor : ℚ) (st' : Heap × ℚ) (x : Nat), x ∈ List.range addrs.length →
      (rescaleStepH factor (List.range' h.length addrs.length) st' x).1[a]? = st'.1[a]? ∧
      (rescaleStepH factor (List.range' h.length addrs.length) st' x).1.length
        = st'.1.length :=
    fun factor st' x hx =>
      rescaleStepH_preserve factor h.length addrs.length a ha x (List.mem_range.mp hx) st'
  have hfold : ∀ factor : ℚ,
      ((List.range addrs.length).foldl
        (rescaleStepH factor (List.range' h.length addrs.length))
        (h ++ addrs.map (readH h), 0)).1[a]? = h[a]? ∧
      h.length ≤ ((List.range addrs.length).foldl
        (rescaleStepH factor (List.range' h.length addrs.length))
        (h ++ addrs.map (readH h), 0)).1.length := by
    intro factor
    have hf := foldl_pair_preserved (rescaleStepH factor (List.range' h.length addrs.length))
      a (List.range addrs.length) (h ++ addrs.map (readH h), 0) (hsteps factor)
    exact ⟨hf.1.trans hbase_get, by rw [hf.2, hbase_len]; omega⟩
  simp only [enforceTotalDurationH, deepcopy, List.length_range']
  split_ifs with he hclose hadj
  · exact ⟨rfl, le_refl _⟩
  · exact ⟨hbase_get, by rw [hbase_len]; omega⟩
  · have hlenpos : 0 < addrs.length := List.length_pos.mpr he
    constructor
    · exact (writeH_getElem? _ _ a _
        (by rw [range'_getD h.length addrs.length _ (by omega)]; omega)).trans
        (hfold _).1
    · exact (hfold _).2.trans (le_of_eq (writeH_length _ _ _).symm)
  · exact ⟨(hfold _).1, (hfold _).2⟩

theorem fixAllTimingIssuesH_frame (tol : ℚ) (minD : Option ℚ) (h : Heap)
    (addrs : List Nat) (a : Nat) (ha : a < h.length) :
    (fixAllTimingIssuesH tol minD h addrs).1[a]? = h[a]? ∧
    h.length ≤ (fixAllTimingIssuesH tol minD h addrs).1.length := by
  have f1 := fixOverlapsTrimPreviousH_frame h addrs a ha
  have f2 := fixGapsExtendPreviousH_frame tol minD (fixOverlapsTrimPreviousH h addrs).1
    (fixOverlapsTrimPreviousH h addrs).2 a (lt_of_lt_of_le ha f1.2)
  have h12 : h.length ≤ (fixGapsExtendPreviousH tol minD
      (fixOverlapsTrimPreviousH h addrs).1
      (fixOverlapsTrimPreviousH h addrs).2).1.length := f1.2.trans f2.2
  have g12 : (fixGapsExtendPreviousH tol minD (fixOverlapsTrimPreviousH h addrs).1
      (fixOverlapsTrimPreviousH h addrs).2).1[a]? = h[a]? := f2.1.trans f1.1
  have f3 := fixGapsShiftFollowingH_frame tol
    (fixGapsExtendPreviousH tol minD (fixOverlapsTrimPreviousH h addrs).1
      (fixOverlapsTrimPreviousH h addrs).2).1 addrs a (lt_of_lt_of_le ha h12)
  have f4 := fixOverlapsTrimPreviousH_frame
    (fixGapsShiftFollowingH tol (fixGapsExtendPreviousH tol minD
      (fixOverlapsTrimPreviousH h addrs).1 (fixOverlapsTrimPreviousH h addrs).2).1 addrs).1
    (fixGapsShiftFollowingH tol (fixGapsExtendPreviousH tol minD
      (fixOverlapsTrimPreviousH h addrs).1 (fixOverlapsTrimPreviousH h addrs).2).1 addrs).2
    a (lt_of_lt_of_le ha (h12.trans f3.2))
  simp only [fixAllTimingIssuesH]
  split_ifs with he
  · exact ⟨rfl, le_refl _⟩
  · split
    · exact ⟨g12, h12⟩
    · split_ifs
      · exact ⟨g12, h12⟩
      · exact ⟨f4.1.trans (f3.1.trans g12), (h12.trans f3.2).trans f4.2⟩

/-- C7: each repair/rescale operation allocates fresh cells for its result
and never writes a cell that existed before the call: every reference that
was valid in the input heap still dereferences to the identical scene — no
`start_time`, `end_time` or `duration` of the argument scenes is mutated in
place. -/
theorem repair_ops_do_not_mutate_input (tol target : ℚ) (minD : Option ℚ)
    (h : Heap) (addrs : List Nat) (a : Nat) (ha : a < h.length) :
    (fixOverlapsTrimPreviousH h addrs).1[a]? = h[a]? ∧
    (fixGapsShiftFollowingH tol h addrs).1[a]? = h[a]? ∧
    (fixGapsExtendPreviousH tol minD h addrs).1[a]? = h[a]? ∧
    (enforceTotalDurationH tol h addrs target).1[a]? = h[a]? ∧
    (fixAllTimingIssuesH tol minD h addrs).1[a]? = h[a]? :=
  ⟨(fixOverlapsTrimPreviousH_frame h addrs a ha).1,
   (fixGapsShiftFollowingH_frame tol h addrs a ha).1,
   (fixGapsExtendPreviousH_frame tol minD h addrs a ha).1,
   (enforceTotalDurationH_frame tol target h addrs a ha).1,
   (fixAllTimingIssuesH_frame tol minD h addrs a ha).1⟩

/-- Witness for C7 on a heap of two overlapping scenes (the repairs do
write their copies there). -/
theorem repair_ops_do_not_mutate_input_witness :
    (fixOverlapsTrimPreviousH [⟨0, 5, 5⟩, ⟨0, 5, 5⟩] [0, 1]).1[0]? =
      ([⟨0, 5, 5⟩, ⟨0, 5, 5⟩] : Heap)[0]? ∧
    (fixGapsShiftFollowingH (1 / 1000) [⟨0, 5, 5⟩, ⟨0, 5, 5⟩] [0, 1]).1[0]? =
      ([⟨0, 5, 5⟩, ⟨0, 5, 5⟩] : Heap)[0]? ∧
    (fixGapsExtendPreviousH (1 / 1000) none [⟨0, 5, 5⟩, ⟨0, 5, 5⟩] [0, 1]).1[0]? =
      ([⟨0, 5, 5⟩, ⟨0, 5, 5⟩] : Heap)[0]? ∧
    (enforceTotalDurationH (1 / 1000) [⟨0, 5, 5⟩, ⟨0, 5, 5⟩] [0, 1] 45).1[0]? =
      ([⟨0, 5, 5⟩, ⟨0, 5, 5⟩] : Heap)[0]? ∧
    (fixAllTimingIssuesH (1 / 1000) none [⟨0, 5, 5⟩, ⟨0, 5, 5⟩] [0, 1]).1[0]? =
      ([⟨0, 5, 5⟩, ⟨0, 5, 5⟩] : Heap)[0]? :=
  repair_ops_do_not_mutate_input (1 / 1000) 45 none [⟨0, 5, 5⟩, ⟨0, 5, 5⟩] [0, 1] 0
    (by simp)

end Aidobe
